import Mathlib

/-!
# Verification of the cf-search index shard

Shallow embedding of the cf-search repository (a Cloudflare Durable-Object
full-text search service) and proofs about it.

The embedding follows the TypeScript source:
* `src/content-processor.ts` — `preprocessContent`, `preprocessQuery`,
  `analyzeQuery`;
* `src/config.ts` — the `STOP_WORDS` and `COMMON_TERMS` compile-time sets;
* `src/durables/search-do.ts` — the `SearchIndexDO` class: `indexDocuments`,
  `syncDocuments`, `searchDocuments`, `search`, `searchColdStorage`,
  `configure`, `alarm`, `syncToReplica`, `syncToReplicas`, `purgeOldData`,
  `getStats`.

Modelling conventions:
* JS strings are Lean `String`; the char-level pipeline works on `List Char`.
* JS `\w` is `[A-Za-z0-9_]` (ASCII); `String.prototype.toLowerCase` is
  modelled character-wise on the ASCII range (`jsToLower`), which agrees with
  JS on all ASCII input.
* JS numbers used as counts are `Nat`/`Int` with exact arithmetic; the float
  expressions `count * 0.8` / `ratio > 0.8` / `ratio < 0.5` are modelled as
  exact rationals, which agrees with the IEEE-754 evaluation at every
  magnitude the service can reach.
* JS truthiness of an optional numeric config field (`cfg.x || d`) is
  `jsOrNat`: `none` and `some 0` both fall through to the default.
* The SQLite store of one shard is a list of rows `{rowid, id, content}`;
  `LIMIT n` is `List.take n`.
* Other shards (replicas, cold shards) reached over RPC are oracles:
  functions from the request to a result, where a thrown JS error is an
  explicit constructor.  A `catch` that logs and rethrows is modelled as
  propagating the error value; a `catch` that logs and absorbs yields the
  fallback value the source uses.
-/

namespace CfSearch

/-! ## JS character primitives -/

/-- JS `\w` character class: `[A-Za-z0-9_]`. -/
def isWordChar (c : Char) : Bool :=
  (('A' ≤ c && c ≤ 'Z') || ('a' ≤ c && c ≤ 'z') || ('0' ≤ c && c ≤ '9') || c = '_')

/-- Character-wise model of JS `toLowerCase` (exact on ASCII input). -/
def jsToLower (c : Char) : Char :=
  if 65 ≤ c.toNat ∧ c.toNat ≤ 90 then Char.ofNat (c.toNat + 32) else c

/-! ## Tokenisation

Both `preprocessContent`, `preprocessQuery` and `analyzeQuery` run the same
JS pipeline `s.replace(/[^\w\s]+/g, " ").split(/\s+/).filter(w => w.length > 0)`:
every non-word character (whitespace or not) ends up acting as a separator, so
the token list is the list of maximal runs of word characters. -/

/-- Accumulator-style tokeniser: `acc` holds the current (reversed) run of
word characters. -/
def tokenizeAux : List Char → List Char → List (List Char)
  | [], acc => if acc.isEmpty then [] else [acc.reverse]
  | c :: rest, acc =>
    if isWordChar c then tokenizeAux rest (c :: acc)
    else if acc.isEmpty then tokenizeAux rest []
    else acc.reverse :: tokenizeAux rest []

/-- Tokens of a JS string under the source's replace/split/filter pipeline. -/
def tokenize (l : List Char) : List (List Char) := tokenizeAux l []

/-- Model of JS `Array.prototype.flatten(" ")`. -/
def joinSp : List (List Char) → List Char
  | [] => []
  | [w] => w
  | w :: ws => w ++ ' ' :: joinSp ws

/-! ## Word sets (`src/config.ts`) -/

/-- The `STOP_WORDS` set from `src/config.ts`, verbatim. -/
def STOP_WORDS : List String :=
  ["a", "an", "the",
   "and", "or", "but", "nor", "for", "yet", "so",
   "in", "on", "at", "to", "from", "with", "by", "about", "against",
   "between", "into", "through", "during", "before", "after", "above",
   "below", "up", "down", "out", "off", "over", "under",
   "i", "me", "my", "myself", "we", "our", "ours", "ourselves", "you",
   "your", "yours", "yourself", "yourselves", "he", "him", "his",
   "himself", "she", "her", "hers", "herself", "it", "its", "itself",
   "they", "them", "their", "theirs", "themselves",
   "is", "am", "are", "was", "were", "be", "been", "being", "have",
   "has", "had", "having", "do", "does", "did", "doing",
   "this", "that", "these", "those", "what", "which", "who", "whom",
   "whose", "when", "where", "why", "how", "all", "both", "each",
   "few", "more", "most", "other", "some", "such", "only", "very",
   "can", "will", "just", "should", "could", "would", "may", "might",
   "must", "shall", "not", "no", "yes"]

/-- The `COMMON_TERMS` set from `src/config.ts`, verbatim. -/
def COMMON_TERMS : List String :=
  ["post", "posts", "user", "users", "comment", "comments", "like",
   "likes", "share", "shares", "view", "views", "video", "videos",
   "image", "images", "photo", "photos", "picture", "pictures",
   "meme", "memes", "funny", "lol", "lmao", "fun", "joke", "jokes",
   "humor", "humour", "viral", "trending", "hot", "new", "best",
   "top", "popular", "epic", "awesome", "amazing", "great", "good",
   "bad", "wtf", "omg",
   "cat", "cats", "dog", "dogs", "pet", "pets", "animal", "animals",
   "today", "yesterday", "tomorrow", "now", "latest", "recent", "old",
   "year", "month", "day", "time",
   "content", "thing", "things", "stuff", "item", "items", "one",
   "two", "first", "last", "next"]

/-- Membership of a token in `STOP_WORDS`. -/
def inStop (w : List Char) : Bool := STOP_WORDS.contains (String.mk w)

/-- Membership of a token in `COMMON_TERMS`. -/
def inCommon (w : List Char) : Bool := COMMON_TERMS.contains (String.mk w)

/-! ## `src/content-processor.ts` -/

/-- The token filter of `preprocessContent`: keep tokens of length 2…50 that
are in neither word set (the input is already lowercased). -/
def keepContentTok (w : List Char) : Bool :=
  2 ≤ w.length && w.length ≤ 50 && !inStop w && !inCommon w

/-- Body of `preprocessContent` on the character list. -/
def preprocessContentL (l : List Char) : List Char :=
  joinSp ((tokenize (l.map jsToLower)).filter keepContentTok)

/-- Embedding of `preprocessContent(content)` from `src/content-processor.ts`.  The JS
guard `!content` returns `""` for the empty string, which the pipeline also
produces, so it needs no separate branch. -/
def preprocessContent (content : String) : String :=
  String.mk (preprocessContentL content.data)

/-- The token filter of `preprocessQuery`: keep tokens whose lowercase form
has length ≥ 2 and is not a stop word (original case is kept). -/
def keepQueryTok (w : List Char) : Bool :=
  2 ≤ (w.map jsToLower).length && !inStop (w.map jsToLower)

/-- Body of `preprocessQuery` on the character list. -/
def preprocessQueryL (l : List Char) : List Char :=
  joinSp ((tokenize l).filter keepQueryTok)

/-- Embedding of `preprocessQuery(query)` from `src/content-processor.ts`. -/
def preprocessQuery (query : String) : String :=
  String.mk (preprocessQueryL query.data)

/-- Cost buckets of `analyzeQuery`. -/
inductive Cost | low | medium | high
deriving DecidableEq, Repr

/-- Result record of `analyzeQuery` (the float `commonTermsRatio` is kept as
the exact pair numerator/denominator). -/
structure QueryAnalysis where
  isValid : Bool
  isTooCommon : Bool
  commonCount : Nat
  totalCount : Nat
  estimatedCost : Cost
deriving Repr, DecidableEq

/-- Embedding of `analyzeQuery(query)` from `src/content-processor.ts`.
`commonTermsRatio > 0.8` is `5 * common > 4 * total` and
`commonTermsRatio < 0.5` is `2 * common < total`; both are exact for the
IEEE-754 doubles the source computes at any feasible token count. -/
def analyzeQuery (query : String) : QueryAnalysis :=
  if query = "" then
    ⟨false, false, 0, 0, .low⟩
  else
    let words := tokenize (query.data.map jsToLower)
    if words.isEmpty then
      ⟨false, false, 0, 0, .low⟩
    else
      let commonTermCount := (words.filter fun w => inStop w || inCommon w).length
      let total := words.length
      let isTooCommon := 4 * total < 5 * commonTermCount
      let estimatedCost : Cost :=
        if commonTermCount = 0 then .low
        else if 2 * commonTermCount < total then .medium
        else .high
      ⟨true, isTooCommon, commonTermCount, total, estimatedCost⟩

/-! ## Shard data model (`src/types.ts`, `src/durables/search-do.ts`) -/

/-- A JS value in a document field position (`typeof` discrimination). -/
inductive JsVal
  | str (s : String)
  | num (n : Int)
  | other
deriving DecidableEq, Repr

/-- A not-yet-validated document `{id, content}` as received over RPC. -/
structure RawDoc where
  id : JsVal
  content : JsVal
deriving DecidableEq, Repr

/-- The configured document id type. -/
inductive IdType | string | integer
deriving DecidableEq, Repr

/-- A replica descriptor (`ReplicaInfo` in `src/types.ts`). -/
structure ReplicaInfo where
  type : Bool  -- `true` = region, `false` = local (tag only; resolution is an oracle)
  name : Option String := none
  id : Option String := none
deriving DecidableEq, Repr

/-- The persistent shard configuration (`DOConfig`); `none` = absent field. -/
structure DOConfig where
  alarmIntervalMs : Option Nat := none
  purgeThresholdDocs : Option Nat := none
  purgeTargetDocs : Option Nat := none
  coldStorageThresholdDocs : Option Nat := none
  replicas : Option (List ReplicaInfo) := none
  isReadOnly : Option Bool := none
  currentColdStorageIndex : Option Nat := none
  idType : Option IdType := none
deriving DecidableEq, Repr

/-- JS `cfg.field || default` on an optional numeric field: both an absent
field and a present `0` fall through to the default. -/
def jsOrNat (o : Option Nat) (d : Nat) : Nat :=
  match o with
  | some n => if n = 0 then d else n
  | none => d

/-- JS truthiness of an optional numeric field. -/
def truthyNat (o : Option Nat) : Bool :=
  match o with
  | some n => !(n = 0)
  | none => false

/-- The JS expression `this.config.idType || "string"`. -/
def idTypeOf (cfg : DOConfig) : IdType := cfg.idType.getD .string

/-- A row of the `documents` FTS table: SQLite rowid plus the two columns. -/
structure Row where
  rowid : Nat
  id : JsVal
  content : String
deriving DecidableEq, Repr

/-- A search hit `{id, content, rank}`. -/
structure SearchResult where
  id : String
  content : String
  rank : Int
deriving DecidableEq, Repr

/-- The `DOStats` record (`count`, `estimatedSize` now actual size, optional flag). -/
structure DOStats where
  count : Nat
  estimatedSize : Nat
  isReadOnly : Option Bool := none
deriving DecidableEq, Repr

/-! ## `configure` (`search-do.ts` lines 590-606)

`this.config = { ...this.config, ...newConfig }`: a field present in the
request overrides, an absent field keeps the old value.  Nothing is ever
rejected; the merged config is persisted unconditionally. -/

/-- The object-spread merge performed by `configure`. -/
def mergeConfig (cfg req : DOConfig) : DOConfig where
  alarmIntervalMs := req.alarmIntervalMs.orElse fun _ => cfg.alarmIntervalMs
  purgeThresholdDocs := req.purgeThresholdDocs.orElse fun _ => cfg.purgeThresholdDocs
  purgeTargetDocs := req.purgeTargetDocs.orElse fun _ => cfg.purgeTargetDocs
  coldStorageThresholdDocs := req.coldStorageThresholdDocs.orElse fun _ => cfg.coldStorageThresholdDocs
  replicas := req.replicas.orElse fun _ => cfg.replicas
  isReadOnly := req.isReadOnly.orElse fun _ => cfg.isReadOnly
  currentColdStorageIndex := req.currentColdStorageIndex.orElse fun _ => cfg.currentColdStorageIndex
  idType := req.idType.orElse fun _ => cfg.idType

/-- Embedding of `configure(newConfig)`: the new in-memory (and persisted) config. -/
def configure (cfg req : DOConfig) : DOConfig := mergeConfig cfg req

/-! ## `getStats` (`search-do.ts` lines 465-492) -/

/-- Embedding of `getStats()`: `COUNT(*)` over the table, the database size, and
the `isReadOnly` flag spread in only when the config field is present. -/
def getStats (cfg : DOConfig) (db : List Row) (databaseSize : Nat) : DOStats :=
  { count := db.length
    estimatedSize := databaseSize
    isReadOnly := cfg.isReadOnly }

/-! ## The search path (`search-do.ts` lines 387-460, 699-800, 830-888) -/

/-- Oracle for the local SQLite FTS store on the query path: for a given
bound FTS query string, whether `sql.exec` throws, and the matching rows in
rank order before `LIMIT` is applied. -/
structure SqlSearch where
  fails : String → Bool
  rows : String → List SearchResult

/-- Oracle for the cold-storage fan-out: results returned by cold shard `i`
for a query and per-shard budget (a shard whose RPC fails is absorbed by the
source's `.catch(() => [])`, i.e. modelled by an oracle returning `[]`). -/
structure ColdSearch where
  results : Nat → String → Nat → List SearchResult

/-- The `"--"` substring test (`processedQuery.includes("--")`). -/
def hasDashDash : List Char → Bool
  | '-' :: '-' :: _ => true
  | _ :: rest => hasDashDash rest
  | [] => false

/-- Model of the JS replace doubling every double-quote character. -/
def escapeQuotes (l : List Char) : List Char :=
  l.flatMap fun c => if c = '"' then ['"', '"'] else [c]

/-- JS `\s` (ASCII part; the processed queries reaching this split contain
only single spaces). -/
def isJsSpace (c : Char) : Bool :=
  c = ' ' || c = '\t' || c = '\n' || c = '\r' || c = '\x0b' || c = '\x0c'

/-- Accumulator splitter for `split(/\s+/).filter(w => w.length > 0)`. -/
def splitWsAux : List Char → List Char → List (List Char)
  | [], acc => if acc.isEmpty then [] else [acc.reverse]
  | c :: rest, acc =>
    if isJsSpace c then
      if acc.isEmpty then splitWsAux rest [] else acc.reverse :: splitWsAux rest []
    else splitWsAux rest (c :: acc)

/-- Whitespace split with empty pieces dropped. -/
def splitWs (l : List Char) : List (List Char) := splitWsAux l []

/-- The FTS query string built by `search` from the processed query:
dangerous characters force a quoted phrase; multi-word queries are re-joined
with single spaces; single words pass through. -/
def buildFtsQuery (p : List Char) : List Char :=
  if p.contains '"' || p.contains '\'' || p.contains ';' || hasDashDash p then
    '"' :: escapeQuotes p ++ ['"']
  else if p.contains ' ' then
    joinSp (splitWs p)
  else p

/-- Insertion into a rank-sorted list (`(a, b) => a.rank - b.rank`). -/
def insertByRank (r : SearchResult) : List SearchResult → List SearchResult
  | [] => [r]
  | x :: xs => if r.rank ≤ x.rank then r :: x :: xs else x :: insertByRank r xs

/-- The sort `results.sort((a, b) => a.rank - b.rank)`. -/
def sortByRank : List SearchResult → List SearchResult
  | [] => []
  | x :: xs => insertByRank x (sortByRank xs)

/-- The private `search(queryText, maxResults)` (lines 699-800): preprocess,
reject planner failures, bucket the cost, cap the limit, run the FTS query;
on failure fall back once to a quoted phrase of the *raw* query text with a
fixed cap of 50, and on a second failure return `[]`. -/
def searchLocal (o : SqlSearch) (queryText : String) (maxResults : Nat) : List SearchResult :=
  let processedQuery := preprocessQuery queryText
  if processedQuery = "" then []
  else
    let qa := analyzeQuery processedQuery
    if qa.isTooCommon then []
    else
      let effectiveMaxResults :=
        match qa.estimatedCost with
        | .high => min maxResults 50
        | .medium => min maxResults 200
        | .low => maxResults
      let ftsQuery := String.mk (buildFtsQuery processedQuery.data)
      if o.fails ftsQuery then
        let fallbackQuery := String.mk ('"' :: escapeQuotes queryText.data ++ ['"'])
        if o.fails fallbackQuery then []
        else (o.rows fallbackQuery).take 50
      else (o.rows ftsQuery).take effectiveMaxResults

/-- Embedding of `searchColdStorage(queryText, maxResults)` (lines 830-888): distribute
the budget over `currentColdStorageIndex` shards (`ceil`, min 1), collect in
parallel absorbing per-shard errors, sort by rank, cap at `maxResults`. -/
def searchColdStorage (cold : ColdSearch) (cfg : DOConfig) (queryText : String)
    (maxResults : Nat) : List SearchResult :=
  let currentIndex := cfg.currentColdStorageIndex.getD 0
  if currentIndex = 0 || maxResults = 0 then []
  else
    let resultsPerDO := max 1 ((maxResults + currentIndex - 1) / currentIndex)
    let all := (List.range currentIndex).flatMap fun i => cold.results i queryText resultsPerDO
    (sortByRank all).take maxResults

/-- Parameters of `searchDocuments(params)`. -/
structure SearchParams where
  query : String
  includeCold : Option Bool := none
  maxResults : Option Nat := none

/-- Embedding of `searchDocuments(params)` (lines 387-460): missing query gives `[]`;
local search; if `includeCold` and not read-only and the cold index is
truthy, fan out with the remaining budget, merge by rank and cap at
`maxResults`; otherwise return the local results as-is. -/
def searchDocuments (o : SqlSearch) (cold : ColdSearch) (cfg : DOConfig)
    (params : SearchParams) : List SearchResult :=
  let query := params.query
  let includeCold := params.includeCold.getD false
  let maxResults := params.maxResults.getD 100
  if query = "" then []
  else
    let results := searchLocal o query maxResults
    if includeCold && !(cfg.isReadOnly.getD false) && truthyNat cfg.currentColdStorageIndex then
      let coldResults := searchColdStorage cold cfg query (maxResults - results.length)
      let merged := sortByRank (results ++ coldResults)
      merged.take maxResults
    else results

/-! ## Validation (`src/types.ts` lines 126-234) -/

/-- Field errors produced by `validateDocument(doc, idType)` (field names
only; messages elided). -/
def validateDocumentErrors (doc : RawDoc) (idType : IdType) : List String :=
  (match idType, doc.id with
   | .integer, .num n => if n < 0 then ["id"] else []
   | .integer, _ => ["id"]
   | .string, .str s => if s = "" then ["id"] else if 255 < s.length then ["id"] else []
   | .string, _ => ["id"]) ++
  (match doc.content with
   | .str c => if c = "" then ["content"] else []
   | _ => ["content"])

/-- Outcome of `validateDocuments`: `valid` iff no errors; `data` is the
sublist of individually valid documents, `undefined` when that list is
empty (except for the empty-input early return, which yields `[]`). -/
structure ValidationResult where
  valid : Bool
  data : Option (List RawDoc)
  errors : List String
deriving DecidableEq, Repr

/-- Embedding of `validateDocuments(docs, idType)` from `src/types.ts`. -/
def validateDocuments (docs : List RawDoc) (idType : IdType) : ValidationResult :=
  if docs.isEmpty then ⟨true, some [], []⟩
  else
    let errors := docs.flatMap fun d => validateDocumentErrors d idType
    let validDocuments := docs.filter fun d => (validateDocumentErrors d idType).isEmpty
    ⟨errors.isEmpty, if validDocuments.isEmpty then none else some validDocuments, errors⟩

/-! ## Store mutation (`search-do.ts` lines 611-694) -/

/-- The JS expression `processedContent.slice(0, 500)`. -/
def truncate500 (s : String) : String := String.mk (s.data.take 500)

/-- The stored column value: `doc.content || ""` preprocessed and truncated. -/
def storedContent (d : RawDoc) : String :=
  truncate500 (preprocessContent (match d.content with | .str s => s | _ => ""))

/-- Chunking accumulator for the 15-document batches of
`indexDocumentsInternal` (`CHUNK_SIZE = 15`). -/
def chunksAux (n : Nat) : List α → List α → Nat → List (List α)
  | [], cur, _ => if cur.isEmpty then [] else [cur.reverse]
  | a :: rest, cur, k =>
    if n ≤ k + 1 then (a :: cur).reverse :: chunksAux n rest [] 0
    else chunksAux n rest (a :: cur) (k + 1)

/-- The `documents.slice(i, i + CHUNK_SIZE)` loop as a chunk list. -/
def chunksOf (n : Nat) (l : List α) : List (List α) := chunksAux n l [] 0

/-- The next SQLite rowid assigned on insert: one more than the largest
rowid in the table. -/
def nextRowid (db : List Row) : Nat := (db.foldl (fun m r => max m r.rowid) 0) + 1

/-- Insert documents one after the other with freshly assigned rowids
(string-id mode `INSERT`). -/
def insertFresh (db : List Row) : List RawDoc → List Row
  | [] => db
  | d :: ds => insertFresh (db ++ [⟨nextRowid db, d.id, storedContent d⟩]) ds

/-- One string-mode chunk: `DELETE FROM documents WHERE id IN (…)` then
`INSERT INTO documents (id, content) VALUES …`. -/
def indexChunkString (db : List Row) (chunk : List RawDoc) : List Row :=
  insertFresh (db.filter fun r => !(chunk.map (·.id)).contains r.id) chunk

/-- One integer-mode chunk: `REPLACE INTO documents(rowid, content)` — the
row with the colliding rowid is rewritten. -/
def indexChunkInteger (db : List Row) (chunk : List RawDoc) : List Row :=
  chunk.foldl
    (fun db d =>
      let rid := match d.id with | .num n => n.toNat | _ => 0
      db.filter (fun r => r.rowid ≠ rid) ++ [⟨rid, d.id, storedContent d⟩])
    db

/-- Embedding of `indexDocumentsInternal(documents)`: chunk at 15 and run
`indexDocumentChunk` per chunk according to the configured id type. -/
def indexDocumentsInternal (idType : IdType) (db : List Row) (docs : List RawDoc) : List Row :=
  (chunksOf 15 docs).foldl
    (fun db chunk =>
      match idType with
      | .string => indexChunkString db chunk
      | .integer => indexChunkInteger db chunk)
    db

/-! ## `indexDocuments` / `syncDocuments` (`search-do.ts` lines 168-382) -/

/-- RPC result of `indexDocuments`. -/
structure IndexResult where
  success : Bool
  indexed : Nat
  error : Option String := none
deriving DecidableEq, Repr

/-- RPC result of `syncDocuments`. -/
structure SyncResult where
  success : Bool
  synced : Nat
  error : Option String := none
deriving DecidableEq, Repr

/-- Observable write effect of an index/sync call: the table afterwards and
whether the KV search cache was invalidated. -/
structure WriteEffect where
  db : List Row
  cacheInvalidated : Bool
deriving DecidableEq, Repr

/-- Embedding of `indexDocuments(documents)` (lines 168-274): read-only rejection,
validation, store mutation, cache invalidation (`hasCache` models the
presence of `env.SEARCH_CACHE`). -/
def indexDocuments (cfg : DOConfig) (hasCache : Bool) (db : List Row)
    (docs : List RawDoc) : IndexResult × WriteEffect :=
  if cfg.isReadOnly.getD false then
    (⟨false, 0, some "This is a read-only cold storage DO"⟩, ⟨db, false⟩)
  else
    let idType := idTypeOf cfg
    let validation := validateDocuments docs idType
    if !validation.valid then
      (⟨false, 0, some "Invalid documents"⟩, ⟨db, false⟩)
    else
      match validation.data with
      | some data =>
        if !data.isEmpty then
          let db2 := indexDocumentsInternal idType db data
          let invalidated := hasCache && !data.isEmpty
          (⟨true, data.length, none⟩, ⟨db2, invalidated⟩)
        else (⟨true, 0, none⟩, ⟨db, false⟩)
      | none => (⟨true, 0, none⟩, ⟨db, false⟩)

/-- Embedding of `syncDocuments(documents)` (lines 279-382): textually the same body as
`indexDocuments` with `sync`/`synced` naming (and no storage-metrics log). -/
def syncDocuments (cfg : DOConfig) (hasCache : Bool) (db : List Row)
    (docs : List RawDoc) : SyncResult × WriteEffect :=
  if cfg.isReadOnly.getD false then
    (⟨false, 0, some "This is a read-only cold storage DO"⟩, ⟨db, false⟩)
  else
    let idType := idTypeOf cfg
    let validation := validateDocuments docs idType
    if !validation.valid then
      (⟨false, 0, some "Invalid documents"⟩, ⟨db, false⟩)
    else
      match validation.data with
      | some data =>
        if !data.isEmpty then
          let db2 := indexDocumentsInternal idType db data
          let invalidated := hasCache && !data.isEmpty
          (⟨true, data.length, none⟩, ⟨db2, invalidated⟩)
        else (⟨true, 0, none⟩, ⟨db, false⟩)
      | none => (⟨true, 0, none⟩, ⟨db, false⟩)

/-! ## Replication (`search-do.ts` lines 562-585, 805-825, 893-925) -/

/-- Result of an outbound RPC: either a value or a thrown transport error. -/
inductive RpcOut (α : Type)
  | ok (a : α)
  | thrown
deriving DecidableEq, Repr

/-- The `{success, synced}` record returned by a replica's `syncDocuments`. -/
structure ReplicaSyncResult where
  success : Bool
  synced : Nat
deriving DecidableEq, Repr

/-- Oracle for replica resolution and transport: `getReplicaStub` yields
`none` for an unresolvable descriptor (invalid shape, or `idFrom*` threw and
was caught), `some f` for a stub whose `syncDocuments(docs)` behaves as
`f docs`. -/
structure ReplicaNet where
  stub : ReplicaInfo → Option (List RawDoc → RpcOut ReplicaSyncResult)

/-- The mutable state of one shard that the background tick touches. -/
structure ShardState where
  db : List Row
  config : DOConfig
  lastSyncRowId : Option Nat := none
deriving Repr, DecidableEq

/-- The `{ id, content }` row projection sent to replicas and cold shards. -/
def rowToRawDoc (r : Row) : RawDoc := ⟨r.id, .str r.content⟩

/-- Embedding of `syncToReplica(replicaInfo, documents)` (lines 805-825): an unresolvable
stub returns silently; a transport error or `{success: false}` is logged and
**rethrown** (`throw error` / `throw new Error(...)`). -/
def syncToReplica (net : ReplicaNet) (ri : ReplicaInfo) (docs : List RawDoc) : RpcOut Unit :=
  match net.stub ri with
  | none => .ok ()
  | some f =>
    match f docs with
    | .thrown => .thrown
    | .ok res => if !res.success then .thrown else .ok ()

/-- The rows returned by
`SELECT rowid, id, content FROM documents WHERE rowid > ?` with the bound
`lastSyncRowId || 0` (lines 896-904). -/
def pendingRows (s : ShardState) : List Row :=
  s.db.filter fun r => s.lastSyncRowId.getD 0 < r.rowid

/-- The JS expression `Math.max(...newDocs.map((doc) => doc.rowid))` (exact
for a nonempty list of naturals). -/
def maxRowid (l : List Row) : Nat := l.foldl (fun m r => max m r.rowid) 0

/-- Embedding of `syncToReplicas()` (lines 893-925): scan rows past the persisted cursor,
fan out `syncToReplica` to every configured replica under `Promise.all`, and
— only when every call resolved — persist the cursor at the maximum scanned
rowid.  A single replica failure rejects the `Promise.all`, so the cursor
write is skipped and the error propagates to the caller. -/
def syncToReplicas (net : ReplicaNet) (s : ShardState) : RpcOut ShardState :=
  let newDocs := pendingRows s
  if newDocs.isEmpty then .ok s
  else
    let documents := newDocs.map rowToRawDoc
    let replicas := s.config.replicas.getD []
    if replicas.any fun ri => syncToReplica net ri documents = .thrown then .thrown
    else .ok { s with lastSyncRowId := some (maxRowid newDocs) }

/-! ## Lifecycle / purge (`search-do.ts` lines 956-1086) -/

/-- Oracle for the cold-storage shards during migration: `getStats()`,
`indexDocuments(docs)` and `configureRPC({isReadOnly: true})` on the shard
named `prefix-i`. -/
structure ColdNet where
  stats : Nat → RpcOut DOStats
  index : Nat → List RawDoc → RpcOut IndexResult
  configure : Nat → RpcOut Unit

/-- Insertion into a rowid-sorted list. -/
def insertByRowid (r : Row) : List Row → List Row
  | [] => [r]
  | x :: xs => if r.rowid ≤ x.rowid then r :: x :: xs else x :: insertByRowid r xs

/-- The `ORDER BY rowid ASC` sort. -/
def sortByRowid : List Row → List Row
  | [] => []
  | x :: xs => insertByRowid x (sortByRowid xs)

/-- SQLite `LIMIT ?` with a possibly negative bound parameter: a negative
limit means "no limit". -/
def rowsLimit (rows : List Row) (n : Int) : List Row :=
  if n < 0 then rows else rows.take n.toNat

/-- The quantity `count - targetDocs` with
`targetDocs = purgeTargetDocs || Math.floor(purgeThresholdDocs || count * 0.8)`
(lines 978-979).  `Math.floor(count * 0.8)` is exactly `4 * count / 5` at
every feasible document count. -/
def numToPurge (cfg : DOConfig) (count : Nat) : Int :=
  (count : Int) - jsOrNat cfg.purgeTargetDocs (jsOrNat cfg.purgeThresholdDocs (4 * count / 5))

/-- The rows fetched by
`SELECT rowid, id, content FROM documents ORDER BY rowid ASC LIMIT ?`
with the bound `numToPurge` (lines 984-989). -/
def purgeSelection (cfg : DOConfig) (db : List Row) : List Row :=
  rowsLimit (sortByRowid db) (numToPurge cfg db.length)

/-- The guard `docCountThresholdReached` (line 968):
`purgeThresholdDocs && count >= purgeThresholdDocs`. -/
def docCountThresholdReached (cfg : DOConfig) (count : Nat) : Bool :=
  match cfg.purgeThresholdDocs with
  | some t => !(t = 0) && t ≤ count
  | none => false

/-- The JS expression `coldStorageThresholdDocs || purgeThresholdDocs || 100_000` (line 996). -/
def coldStorageThreshold (cfg : DOConfig) : Nat :=
  jsOrNat cfg.coldStorageThresholdDocs (jsOrNat cfg.purgeThresholdDocs 100000)

/-- Result of the migration loop: the final cold index together with the
batches successfully written (in order), a thrown error, or fuel exhaustion
(the source loop can spin on full shards for unboundedly many iterations). -/
inductive PurgeLoopOut
  | ok (finalIndex : Nat) (moved : List (List Row))
  | thrown
  | nofuel
deriving Repr, DecidableEq

/-- The `while (documentsRemaining.length > 0)` loop of `purgeOldData`
(lines 999-1063): per cold shard read stats (a throw is absorbed as
`{count: 0}`), skip full shards, move what fits, throw on a failed or
unsuccessful cold `indexDocuments`, mark a previously empty shard read-only
(a throw there also propagates), and advance the index when a shard was
filled exactly. -/
def purgeLoop (cold : ColdNet) (threshold : Nat) :
    Nat → Nat → List Row → List (List Row) → PurgeLoopOut
  | 0, _, _, _ => .nofuel
  | _ + 1, i, [], moved => .ok i moved.reverse
  | fuel + 1, i, d :: rest, moved =>
    let remaining := d :: rest
    let stats :=
      match cold.stats i with
      | .ok st => st
      | .thrown => ⟨0, 0, none⟩
    let available : Int := (threshold : Int) - stats.count
    if available ≤ 0 then purgeLoop cold threshold fuel (i + 1) remaining moved
    else
      let documentsToMove := remaining.take available.toNat
      let remaining2 := remaining.drop available.toNat
      match cold.index i (documentsToMove.map rowToRawDoc) with
      | .thrown => .thrown
      | .ok result =>
        if !result.success then .thrown
        else
          match (if stats.count = 0 then cold.configure i else .ok ()) with
          | .thrown => .thrown
          | .ok _ =>
            let i2 := if documentsToMove.length = available.toNat then i + 1 else i
            purgeLoop cold threshold fuel i2 remaining2 (documentsToMove :: moved)

/-- Outcome of a state-mutating background step: the new state, a thrown
error (with the state at the throw point), or loop-fuel exhaustion. -/
inductive StepOut
  | ok (s : ShardState)
  | thrown (s : ShardState)
  | nofuel
deriving Repr, DecidableEq

/-- Embedding of `purgeOldData()` (lines 956-1086): check the document-count and
database-size thresholds; select the oldest rows; migrate them through the
rolling cold-storage loop; persist the advanced cold index; and **only
then** delete `rowid ≤ lastDoc.rowid` from the primary in one statement.
Any error inside the loop propagates before any primary-state mutation. -/
def purgeOldData (cold : ColdNet) (databaseSize : Nat) (fuel : Nat) (s : ShardState) : StepOut :=
  let count := s.db.length
  let sizeThresholdReached := 9000000000 < databaseSize
  if !docCountThresholdReached s.config count && !sizeThresholdReached then .ok s
  else
    let docsToPurge := purgeSelection s.config s.db
    if docsToPurge.isEmpty then .ok s
    else
      let startIndex := s.config.currentColdStorageIndex.getD 0
      match purgeLoop cold (coldStorageThreshold s.config) fuel startIndex docsToPurge [] with
      | .nofuel => .nofuel
      | .thrown => .thrown s
      | .ok finalIndex _ =>
        let s1 :=
          if finalIndex ≠ startIndex then
            { s with config := { s.config with currentColdStorageIndex := some finalIndex } }
          else s
        match docsToPurge.getLast? with
        | none => .ok s1
        | some lastDoc =>
          .ok { s1 with db := s1.db.filter fun r => !(r.rowid ≤ lastDoc.rowid) }

/-! ## The scheduler tick (`alarm`, lines 562-585) -/

/-- Embedding of `alarm()`: read-only shards return without rearming; otherwise run
`syncToReplicas` when replicas are configured and `purgeOldData` when
`purgeThresholdDocs` is truthy — **neither call is wrapped in try/catch** —
and finally set the next alarm at `now + (alarmIntervalMs || 60_000)`.
The returned option is the armed alarm time (`none` = not rearmed). -/
def alarm (net : ReplicaNet) (cold : ColdNet) (databaseSize : Nat) (fuel : Nat)
    (now : Nat) (s : ShardState) : StepOut × Option Nat :=
  if s.config.isReadOnly.getD false then (.ok s, none)
  else
    match (if (s.config.replicas.getD []).isEmpty then .ok s else syncToReplicas net s) with
    | .thrown => (.thrown s, none)
    | .ok s1 =>
      match (if truthyNat s1.config.purgeThresholdDocs
             then purgeOldData cold databaseSize fuel s1 else .ok s1) with
      | .nofuel => (.nofuel, none)
      | .thrown s2 => (.thrown s2, none)
      | .ok s2 =>
        let interval := jsOrNat s2.config.alarmIntervalMs 60000
        (.ok s2, some (now + interval))

/-! ## Concrete oracles and states used in witnesses and counterexamples -/

/-- Trivial local-store oracle: no failures, no rows. -/
def trivialSql : SqlSearch := ⟨fun _ => false, fun _ => []⟩

/-- Trivial cold-storage search oracle: every shard returns nothing. -/
def trivialCold : ColdSearch := ⟨fun _ _ _ => []⟩

/-- Store oracle on which the primary FTS query for `"hello"` throws and
the quoted-phrase fallback returns 11 rows. -/
def cexSql : SqlSearch :=
  ⟨fun s => s = "hello",
   fun s => if s = "\"hello\"" then List.replicate 11 ⟨"d", "c", 0⟩ else []⟩

/-- A read-only persisted config. -/
def roCfg : DOConfig := { isReadOnly := some true }

/-- A `Configure` request clearing the read-only flag. -/
def rwReq : DOConfig := { isReadOnly := some false }

/-- Replica network on which every sync call throws. -/
def failNet : ReplicaNet := ⟨fun _ => some fun _ => .thrown⟩

/-- Replica network on which every sync call succeeds. -/
def okNet : ReplicaNet := ⟨fun _ => some fun docs => .ok ⟨true, docs.length⟩⟩

/-- A regional replica descriptor. -/
def regionReplica : ReplicaInfo := { type := true, name := some "weur" }

/-- A primary with one unsynced row and one configured replica. -/
def s1 : ShardState :=
  { db := [⟨1, .str "a", "x"⟩], config := { replicas := some [regionReplica] } }

/-- Cold-network oracle on which every call succeeds against empty shards. -/
def emptyColdNet : ColdNet :=
  ⟨fun _ => .ok ⟨0, 0, none⟩, fun _ docs => .ok ⟨true, docs.length, none⟩, fun _ => .ok ()⟩

/-- An idle writable shard: nothing to sync, nothing to purge. -/
def sIdle : ShardState := { db := [], config := {} }

/-- A primary over its purge threshold: two rows, threshold 2, target 1. -/
def s4 : ShardState :=
  { db := [⟨1, .str "a", "x"⟩, ⟨2, .str "b", "y"⟩],
    config := { purgeThresholdDocs := some 2, purgeTargetDocs := some 1,
                coldStorageThresholdDocs := some 10 } }

/-- Cold network whose shard 0 accepts stats but rejects every index call
with `success = false`. -/
def rejectColdNet : ColdNet :=
  ⟨fun _ => .ok ⟨0, 0, none⟩, fun _ _ => .ok ⟨false, 0, some "full"⟩, fun _ => .ok ()⟩

/-- A purge-threshold-only config (no purge target set). -/
def thresholdOnlyCfg : DOConfig := { purgeThresholdDocs := some 100 }


/-! ## Lemmas: characters and the tokeniser -/

theorem ofNat_add32_not_upper (n : Nat) (h1 : 65 ≤ n) (h2 : n ≤ 90) :
    ¬(65 ≤ (Char.ofNat (n + 32)).toNat ∧ (Char.ofNat (n + 32)).toNat ≤ 90) := by
  interval_cases n <;> decide

theorem jsToLower_idem (c : Char) : jsToLower (jsToLower c) = jsToLower c := by
  by_cases h : 65 ≤ c.toNat ∧ c.toNat ≤ 90
  · have h2 := ofNat_add32_not_upper c.toNat h.1 h.2
    simp only [jsToLower, if_pos h, if_neg h2]
  · simp only [jsToLower, if_neg h]

theorem isWordChar_space : isWordChar ' ' = false := by decide

theorem jsToLower_space : jsToLower ' ' = ' ' := by decide

/-- Every token produced by the tokeniser is a nonempty run of word
characters (given that the accumulator already holds word characters). -/
theorem tokenizeAux_tokens_word :
    ∀ (l acc : List Char), (∀ c ∈ acc, isWordChar c) →
      ∀ t ∈ tokenizeAux l acc, t ≠ [] ∧ ∀ c ∈ t, isWordChar c := by
  intro l
  induction l with
  | nil =>
    intro acc hacc t ht
    by_cases h : acc.isEmpty
    · simp [tokenizeAux, h] at ht
    · simp only [tokenizeAux, h, Bool.false_eq_true, if_false, List.mem_singleton] at ht
      subst ht
      refine ⟨fun hrev => ?_, fun c hc => hacc c (List.mem_reverse.mp hc)⟩
      rw [List.isEmpty_iff] at h
      exact h (List.reverse_eq_nil_iff.mp hrev)
  | cons c rest ih =>
    intro acc hacc t ht
    by_cases hw : isWordChar c
    · rw [tokenizeAux, if_pos hw] at ht
      refine ih (c :: acc) (fun x hx => ?_) t ht
      rcases List.mem_cons.mp hx with h | h
      · exact h ▸ hw
      · exact hacc x h
    · rw [tokenizeAux, if_neg hw] at ht
      by_cases he : acc.isEmpty
      · rw [if_pos he] at ht
        exact ih [] (by intro x hx; exact absurd hx (List.not_mem_nil x)) t ht
      · rw [if_neg he] at ht
        rcases List.mem_cons.mp ht with h | h
        · subst h
          refine ⟨fun hrev => ?_, fun x hx => hacc x (List.mem_reverse.mp hx)⟩
          rw [List.isEmpty_iff] at he
          exact he (List.reverse_eq_nil_iff.mp hrev)
        · exact ih [] (by intro x hx; exact absurd hx (List.not_mem_nil x)) t h

/-- Characters of tokens come from the input or the accumulator. -/
theorem tokenizeAux_tokens_subset :
    ∀ (l acc : List Char), ∀ t ∈ tokenizeAux l acc, ∀ c ∈ t, c ∈ l ∨ c ∈ acc := by
  intro l
  induction l with
  | nil =>
    intro acc t ht c hc
    by_cases h : acc.isEmpty
    · simp [tokenizeAux, h] at ht
    · simp only [tokenizeAux, h, Bool.false_eq_true, if_false, List.mem_singleton] at ht
      subst ht
      exact Or.inr (List.mem_reverse.mp hc)
  | cons a rest ih =>
    intro acc t ht c hc
    by_cases hw : isWordChar a
    · rw [tokenizeAux, if_pos hw] at ht
      rcases ih (a :: acc) t ht c hc with h | h
      · exact Or.inl (List.mem_cons_of_mem a h)
      · rcases List.mem_cons.mp h with h | h
        · exact Or.inl (h ▸ List.mem_cons_self a rest)
        · exact Or.inr h
    · rw [tokenizeAux, if_neg hw] at ht
      by_cases he : acc.isEmpty
      · rw [if_pos he] at ht
        rcases ih [] t ht c hc with h | h
        · exact Or.inl (List.mem_cons_of_mem a h)
        · exact absurd h (List.not_mem_nil c)
      · rw [if_neg he] at ht
        rcases List.mem_cons.mp ht with h | h
        · subst h
          exact Or.inr (List.mem_reverse.mp hc)
        · rcases ih [] t h c hc with h2 | h2
          · exact Or.inl (List.mem_cons_of_mem a h2)
          · exact absurd h2 (List.not_mem_nil c)

/-- Consuming a run of word characters extends the accumulator. -/
theorem tokenizeAux_append_word (w : List Char) (hw : ∀ c ∈ w, isWordChar c) :
    ∀ (l acc : List Char), tokenizeAux (w ++ l) acc = tokenizeAux l (w.reverse ++ acc) := by
  induction w with
  | nil => intro l acc; simp
  | cons c w ih =>
    intro l acc
    have hc : isWordChar c := hw c (List.mem_cons_self c w)
    have hw2 : ∀ x ∈ w, isWordChar x := fun x hx => hw x (List.mem_cons_of_mem c hx)
    rw [List.cons_append, tokenizeAux, if_pos hc, ih hw2 l (c :: acc),
      List.reverse_cons, List.append_assoc, List.singleton_append]

/-- Tokenising a space-joined list of nonempty word-character tokens gives
back exactly those tokens. -/
theorem tokenize_joinSp (ws : List (List Char))
    (h : ∀ w ∈ ws, w ≠ [] ∧ ∀ c ∈ w, isWordChar c) :
    tokenize (joinSp ws) = ws := by
  induction ws with
  | nil => rfl
  | cons w ws ih =>
    rcases h w (List.mem_cons_self w ws) with ⟨hne, hword⟩
    have hacc : ¬(w.reverse ++ ([] : List Char)).isEmpty := by
      simp [List.isEmpty_iff, hne]
    cases ws with
    | nil =>
      show tokenize w = [w]
      have : (w ++ []) = w := List.append_nil w
      rw [tokenize, ← this, tokenizeAux_append_word w hword [] [], tokenizeAux]
      rw [if_neg hacc]
      simp
    | cons v vs =>
      have hrest : ∀ x ∈ v :: vs, x ≠ [] ∧ ∀ c ∈ x, isWordChar c :=
        fun x hx => h x (List.mem_cons_of_mem w hx)
      show tokenizeAux (w ++ ' ' :: joinSp (v :: vs)) [] = w :: (v :: vs)
      rw [tokenizeAux_append_word w hword (' ' :: joinSp (v :: vs)) [],
        tokenizeAux, isWordChar_space, if_neg (by simp), if_neg hacc]
      have : (w.reverse ++ ([] : List Char)).reverse = w := by simp
      rw [this]
      exact congrArg (w :: ·) (ih hrest)

/-- Characters of a space-join are spaces or characters of the pieces. -/
theorem mem_joinSp (ws : List (List Char)) (c : Char) (hc : c ∈ joinSp ws) :
    c = ' ' ∨ ∃ w ∈ ws, c ∈ w := by
  induction ws with
  | nil => exact absurd hc (List.not_mem_nil c)
  | cons w ws ih =>
    cases ws with
    | nil => exact Or.inr ⟨w, List.mem_cons_self w [], hc⟩
    | cons v vs =>
      rcases List.mem_append.mp hc with h | h
      · exact Or.inr ⟨w, List.mem_cons_self w (v :: vs), h⟩
      · rcases List.mem_cons.mp h with h | h
        · exact Or.inl h
        · rcases ih h with h2 | ⟨x, hx, hcx⟩
          · exact Or.inl h2
          · exact Or.inr ⟨x, List.mem_cons_of_mem w hx, hcx⟩

/-! ## Lemmas: the content filters -/

theorem tokenize_tokens_word (l : List Char) :
    ∀ t ∈ tokenize l, t ≠ [] ∧ ∀ c ∈ t, isWordChar c :=
  tokenizeAux_tokens_word l [] (fun c hc => absurd hc (List.not_mem_nil c))

theorem tokenize_tokens_subset (l : List Char) :
    ∀ t ∈ tokenize l, ∀ c ∈ t, c ∈ l := by
  intro t ht c hc
  rcases tokenizeAux_tokens_subset l [] t ht c hc with h | h
  · exact h
  · exact absurd h (List.not_mem_nil c)

/-- Tokens surviving `keepQueryTok` are nonempty word-character runs. -/
theorem filtered_query_tokens_ok (l : List Char) :
    ∀ w ∈ (tokenize l).filter keepQueryTok, w ≠ [] ∧ ∀ c ∈ w, isWordChar c := by
  intro w hw
  have hmem := List.mem_of_mem_filter hw
  exact tokenize_tokens_word l w hmem

/-- The tokens of a processed query are exactly the original tokens passing
the filter (so each retained token keeps its original characters). -/
theorem tokenize_preprocessQueryL (l : List Char) :
    tokenize (preprocessQueryL l) = (tokenize l).filter keepQueryTok :=
  tokenize_joinSp ((tokenize l).filter keepQueryTok) (filtered_query_tokens_ok l)

theorem preprocessQueryL_idem (l : List Char) :
    preprocessQueryL (preprocessQueryL l) = preprocessQueryL l := by
  show joinSp ((tokenize (preprocessQueryL l)).filter keepQueryTok) = preprocessQueryL l
  rw [tokenize_preprocessQueryL l]
  have : ((tokenize l).filter keepQueryTok).filter keepQueryTok
      = (tokenize l).filter keepQueryTok :=
    List.filter_eq_self.mpr fun w hw => List.of_mem_filter hw
  rw [this]
  rfl

/-- Tokens surviving `keepContentTok` are nonempty word-character runs. -/
theorem filtered_content_tokens_ok (l : List Char) :
    ∀ w ∈ (tokenize (l.map jsToLower)).filter keepContentTok,
      w ≠ [] ∧ ∀ c ∈ w, isWordChar c := by
  intro w hw
  exact tokenize_tokens_word (l.map jsToLower) w (List.mem_of_mem_filter hw)

/-- The output of `preprocessContentL` is already lowercase. -/
theorem preprocessContentL_lower_stable (l : List Char) :
    (preprocessContentL l).map jsToLower = preprocessContentL l := by
  have hstable : ∀ c ∈ preprocessContentL l, jsToLower c = c := by
    intro c hc
    rcases mem_joinSp _ c hc with h | ⟨w, hw, hcw⟩
    · exact h ▸ jsToLower_space
    · have hmem := List.mem_of_mem_filter hw
      have hcl := tokenize_tokens_subset (l.map jsToLower) w hmem c hcw
      rcases List.mem_map.mp hcl with ⟨c0, _, hc0⟩
      rw [← hc0]
      exact jsToLower_idem c0
  calc (preprocessContentL l).map jsToLower
      = (preprocessContentL l).map id := List.map_congr_left hstable
    _ = preprocessContentL l := List.map_id _

theorem preprocessContentL_idem (l : List Char) :
    preprocessContentL (preprocessContentL l) = preprocessContentL l := by
  show joinSp ((tokenize ((preprocessContentL l).map jsToLower)).filter keepContentTok)
      = preprocessContentL l
  rw [preprocessContentL_lower_stable l]
  have htok : tokenize (preprocessContentL l)
      = (tokenize (l.map jsToLower)).filter keepContentTok :=
    tokenize_joinSp _ (filtered_content_tokens_ok l)
  rw [htok]
  have : ((tokenize (l.map jsToLower)).filter keepContentTok).filter keepContentTok
      = (tokenize (l.map jsToLower)).filter keepContentTok :=
    List.filter_eq_self.mpr fun w hw => List.of_mem_filter hw
  rw [this]
  rfl

/-! ## Lemmas: query analysis and the search path -/

/-- The `isTooCommon` flag of `analyzeQuery` is exactly the exceeded 0.8
common-term ratio over its own token counts, in every branch. -/
theorem analyzeQuery_isTooCommon_iff (q : String) :
    (analyzeQuery q).isTooCommon
      = decide (4 * (analyzeQuery q).totalCount < 5 * (analyzeQuery q).commonCount) := by
  unfold analyzeQuery
  split
  · simp
  · dsimp only
    split
    · simp
    · rfl

/-! ## Claim C9 -/

/-- C9: both content filters are idempotent —
`preprocessContent (preprocessContent x) = preprocessContent x` and
`preprocessQuery (preprocessQuery x) = preprocessQuery x` — and
`preprocessQuery` preserves the original case of every retained token: the
tokens of the processed query are exactly the original query's tokens that
pass the filter, character-for-character. -/
theorem C9_filters_idempotent :
    ∀ x : String,
      preprocessContent (preprocessContent x) = preprocessContent x ∧
      preprocessQuery (preprocessQuery x) = preprocessQuery x ∧
      tokenize (preprocessQuery x).data = (tokenize x.data).filter keepQueryTok := by
  intro x
  exact ⟨congrArg String.mk (preprocessContentL_idem x.data),
         congrArg String.mk (preprocessQueryL_idem x.data),
         tokenize_preprocessQueryL x.data⟩

/-! ## Claim C10 -/

/-- C10: every token retained by `preprocessQuery` has length at least 2;
no upper length bound is applied (any nonempty all-word-character non-stop
token of length ≥ 2 — of any length — is kept verbatim); and the query
`"x 7 q"`, made of single-character tokens only, processes to the empty
string, so `searchDocuments` returns `[]` for every store oracle — the
store is never consulted. -/
theorem C10_min_token_length :
    (∀ q : String, ∀ w ∈ tokenize (preprocessQuery q).data, 2 ≤ w.length) ∧
    (∀ w : List Char, w ≠ [] → (∀ c ∈ w, isWordChar c) →
       inStop (w.map jsToLower) = false → 2 ≤ w.length → preprocessQueryL w = w) ∧
    (∀ (o : SqlSearch) (cold : ColdSearch) (cfg : DOConfig) (mr : Option Nat),
       searchDocuments o cold cfg ⟨"x 7 q", none, mr⟩ = []) := by
  refine ⟨?_, ?_, ?_⟩
  · intro q w hw
    have : w ∈ (tokenize q.data).filter keepQueryTok := by
      rw [← tokenize_preprocessQueryL q.data]; exact hw
    have hk : keepQueryTok w := List.of_mem_filter this
    simp only [keepQueryTok, Bool.and_eq_true, decide_eq_true_eq] at hk
    simpa using hk.1
  · intro w hne hword hstop hlen
    have htok : tokenize w = [w] := by
      have : joinSp [w] = w := rfl
      rw [← this]
      exact tokenize_joinSp [w] (by
        intro x hx
        rw [List.mem_singleton] at hx
        exact hx ▸ ⟨hne, hword⟩)
    have hkeep : keepQueryTok w = true := by
      simp only [keepQueryTok, Bool.and_eq_true, decide_eq_true_eq, Bool.not_eq_true']
      exact ⟨by simpa using hlen, hstop⟩
    show joinSp ((tokenize w).filter keepQueryTok) = w
    rw [htok, List.filter_cons, if_pos hkeep]
    rfl
  · intro o cold cfg mr
    have hq : preprocessQuery "x 7 q" = "" := by decide
    simp only [searchDocuments, searchLocal]
    rw [if_neg (by decide : ¬("x 7 q" : String) = "")]
    simp [hq]

/-- Witness for C10: a 60-character token passes the query filter unchanged
(no 50-character cap, unlike the content filter). -/
theorem C10_witness :
    preprocessQueryL (List.replicate 60 'a') = List.replicate 60 'a' :=
  C10_min_token_length.2.1 (List.replicate 60 'a') (by decide) (by decide)
    (by decide) (by decide)

/-! ## Claim C7 -/

/-- C7: whenever the common-term ratio of the processed query exceeds 0.80
(`5 * common > 4 * total` over the planner's own token counts), the planner
rejects the query: the local search returns `[]` and `searchDocuments`
(with `includeCold` unset) returns `[]` — for every store oracle. -/
theorem C7_planner_rejects_common
    (o : SqlSearch) (cold : ColdSearch) (cfg : DOConfig) (q : String) (mr : Option Nat)
    (h : 4 * (analyzeQuery (preprocessQuery q)).totalCount
           < 5 * (analyzeQuery (preprocessQuery q)).commonCount) :
    searchLocal o q (mr.getD 100) = [] ∧
    searchDocuments o cold cfg ⟨q, none, mr⟩ = [] := by
  have hloc : ∀ n : Nat, searchLocal o q n = [] := by
    intro n
    simp only [searchLocal]
    by_cases hp : preprocessQuery q = ""
    · rw [if_pos hp]
    · rw [if_neg hp]
      have htc : (analyzeQuery (preprocessQuery q)).isTooCommon = true := by
        rw [analyzeQuery_isTooCommon_iff]
        exact decide_eq_true h
      simp [htc]
  refine ⟨hloc _, ?_⟩
  simp only [searchDocuments]
  by_cases hq : q = ""
  · rw [if_pos hq]
  · rw [if_neg hq]
    simp [hloc]

/-- Witness for C7: the spec's own example
`Search({query: "the and or cat meme", max: 100})` returns `[]` (the
processed query is `"cat meme"`, both tokens common, ratio `2/2 > 0.8`). -/
theorem C7_witness :
    searchLocal trivialSql "the and or cat meme" 100 = [] ∧
    searchDocuments trivialSql trivialCold {} ⟨"the and or cat meme", none, some 100⟩ = [] :=
  C7_planner_rejects_common trivialSql trivialCold {} "the and or cat meme" (some 100)
    (by decide)

/-! ## Claim C6 -/

theorem length_insertByRank (r : SearchResult) (l : List SearchResult) :
    (insertByRank r l).length = l.length + 1 := by
  induction l with
  | nil => rfl
  | cons x xs ih =>
    simp only [insertByRank]
    split
    · rfl
    · simp [ih]

theorem length_sortByRank (l : List SearchResult) :
    (sortByRank l).length = l.length := by
  induction l with
  | nil => rfl
  | cons x xs ih => simp [sortByRank, length_insertByRank, ih]

/-- Length bounds of the local search: always at most `max maxResults 50`,
and at most `maxResults` when the primary FTS query does not fail. -/
theorem searchLocal_length_le (o : SqlSearch) (q : String) (n : Nat) :
    (searchLocal o q n).length ≤ Nat.max n 50 ∧
    (o.fails (String.mk (buildFtsQuery (preprocessQuery q).data)) = false →
      (searchLocal o q n).length ≤ n) := by
  simp only [searchLocal]
  by_cases hp : preprocessQuery q = ""
  · simp [hp]
  · rw [if_neg hp]
    by_cases htc : (analyzeQuery (preprocessQuery q)).isTooCommon
    · simp [htc]
    · simp only [htc, Bool.false_eq_true, if_false]
      by_cases hf : o.fails (String.mk (buildFtsQuery (preprocessQuery q).data))
      · simp only [hf, if_true]
        refine ⟨?_, fun h => absurd h (by simp)⟩
        by_cases hf2 : o.fails (String.mk ('"' :: escapeQuotes q.data ++ ['"']))
        · simp only [hf2, if_true, List.length_nil]
          exact Nat.zero_le _
        · simp only [hf2, Bool.false_eq_true, if_false]
          exact le_trans (List.length_take_le _ _) (le_max_right n 50)
      · simp only [hf, Bool.false_eq_true, if_false]
        have heff : ∀ c : Cost,
            (match c with
              | .high => min n 50
              | .medium => min n 200
              | .low => n) ≤ n := by
          intro c
          cases c <;> simp [min_le_left]
        constructor
        · exact le_trans (le_trans (List.length_take_le _ _)
            (heff (analyzeQuery (preprocessQuery q)).estimatedCost)) (le_max_left n 50)
        · intro _
          exact le_trans (List.length_take_le _ _)
            (heff (analyzeQuery (preprocessQuery q)).estimatedCost)

/-- C6 (amended): `searchDocuments` returns at most
`max (params.maxResults || 100) 50` hits, and at most
`params.maxResults || 100` hits whenever the primary FTS query does not
fail (no fallback).  The claim's unconditional bound of `maxResults` fails
only on the fallback path with `maxResults < 50` and no cold merge. -/
theorem C6_result_cap (o : SqlSearch) (cold : ColdSearch) (cfg : DOConfig)
    (params : SearchParams) :
    (searchDocuments o cold cfg params).length ≤ Nat.max (params.maxResults.getD 100) 50 ∧
    (o.fails (String.mk (buildFtsQuery (preprocessQuery params.query).data)) = false →
      (searchDocuments o cold cfg params).length ≤ params.maxResults.getD 100) := by
  simp only [searchDocuments]
  by_cases hq : params.query = ""
  · simp [hq]
  · rw [if_neg hq]
    split
    · constructor
      · exact le_trans (List.length_take_le _ _) (le_max_left _ 50)
      · intro _
        exact List.length_take_le _ _
    · exact searchLocal_length_le o params.query (params.maxResults.getD 100)

/-- Witness for C6: with a never-failing store oracle the cap is the
requested `maxResults = 10`. -/
theorem C6_witness :
    (searchDocuments trivialSql trivialCold {} ⟨"hello", none, some 10⟩).length ≤ 10 :=
  (C6_result_cap trivialSql trivialCold {} ⟨"hello", none, some 10⟩).2 rfl

/-- Counterexample to C6 as stated: `searchDocuments` with
`maxResults = 10` returns 11 hits when the primary FTS query fails and the
fallback (with its fixed cap of 50) finds 11 rows — more than `max`. -/
theorem C6_counterexample :
    10 < (searchDocuments cexSql trivialCold {} ⟨"hello", none, some 10⟩).length := by
  decide

/-! ## Claim C8 -/

/-- C8: `syncDocuments` has semantics identical to `indexDocuments` on every
document batch and shard state: the same read-only check, the same
validation against `idType`, the same store mutation, the same
cache-invalidation signal, the same error, and `synced` equals `indexed`. -/
theorem C8_sync_equals_index (cfg : DOConfig) (hasCache : Bool) (db : List Row)
    (docs : List RawDoc) :
    (indexDocuments cfg hasCache db docs).1.success
        = (syncDocuments cfg hasCache db docs).1.success ∧
    (indexDocuments cfg hasCache db docs).1.indexed
        = (syncDocuments cfg hasCache db docs).1.synced ∧
    (indexDocuments cfg hasCache db docs).1.error
        = (syncDocuments cfg hasCache db docs).1.error ∧
    (indexDocuments cfg hasCache db docs).2
        = (syncDocuments cfg hasCache db docs).2 := by
  simp only [indexDocuments, syncDocuments]
  split
  · exact ⟨rfl, rfl, rfl, rfl⟩
  · split
    · exact ⟨rfl, rfl, rfl, rfl⟩
    · split
      · split
        · exact ⟨rfl, rfl, rfl, rfl⟩
        · exact ⟨rfl, rfl, rfl, rfl⟩
      · exact ⟨rfl, rfl, rfl, rfl⟩

/-! ## Claim C3 -/

/-- Counterexample to C3 as stated: `configure` rejects nothing — on a shard
whose config has `readOnly = true`, `Configure({readOnly: false})` succeeds
and performs the ReadOnly → Active transition the claim calls forbidden. -/
theorem C3_counterexample :
    roCfg.isReadOnly = some true ∧ (configure roCfg rwReq).isReadOnly = some false := by
  exact ⟨rfl, rfl⟩

/-- C3 (amended): with `isReadOnly = true` persisted, `indexDocuments` and
`syncDocuments` return a read-only failure without touching the store or the
cache, while `searchDocuments` (reduced to the pure local search, the cold
branch being disabled) and `getStats` remain available; but `configure` is
not guarded at all — any request is merged and persisted, including
`{isReadOnly: false}`, which re-activates the shard. -/
theorem C3_readonly_rejects_writes (cfg : DOConfig) (h : cfg.isReadOnly = some true)
    (hasCache : Bool) (db : List Row) (docs : List RawDoc)
    (o : SqlSearch) (cold : ColdSearch) (params : SearchParams) (size : Nat) :
    indexDocuments cfg hasCache db docs
        = (⟨false, 0, some "This is a read-only cold storage DO"⟩, ⟨db, false⟩) ∧
    syncDocuments cfg hasCache db docs
        = (⟨false, 0, some "This is a read-only cold storage DO"⟩, ⟨db, false⟩) ∧
    searchDocuments o cold cfg params
        = (if params.query = "" then []
           else searchLocal o params.query (params.maxResults.getD 100)) ∧
    getStats cfg db size = ⟨db.length, size, some true⟩ ∧
    (configure cfg { isReadOnly := some false }).isReadOnly = some false := by
  have hro : cfg.isReadOnly.getD false = true := by rw [h]; rfl
  refine ⟨?_, ?_, ?_, ?_, rfl⟩
  · simp only [indexDocuments, hro, if_true]
  · simp only [syncDocuments, hro, if_true]
  · simp only [searchDocuments, hro]
    by_cases hq : params.query = ""
    · rw [if_pos hq, if_pos hq]
    · rw [if_neg hq, if_neg hq]
      simp
  · simp only [getStats, h]

/-- Witness for C3: a concrete read-only shard rejects a valid one-document
index batch, leaves the store untouched, and still serves stats. -/
theorem C3_witness :
    indexDocuments roCfg true [] [⟨.str "a", .str "hello world"⟩]
        = (⟨false, 0, some "This is a read-only cold storage DO"⟩, ⟨[], false⟩) ∧
    syncDocuments roCfg true [] [⟨.str "a", .str "hello world"⟩]
        = (⟨false, 0, some "This is a read-only cold storage DO"⟩, ⟨[], false⟩) ∧
    searchDocuments trivialSql trivialCold roCfg ⟨"hello", none, none⟩
        = (if ("hello" : String) = "" then []
           else searchLocal trivialSql "hello" ((none : Option Nat).getD 100)) ∧
    getStats roCfg [] 0 = ⟨0, 0, some true⟩ ∧
    (configure roCfg { isReadOnly := some false }).isReadOnly = some false :=
  C3_readonly_rejects_writes roCfg rfl true [] [⟨.str "a", .str "hello world"⟩]
    trivialSql trivialCold ⟨"hello", none, none⟩ 0

/-! ## Claim C1 -/

theorem init_le_foldl_max (l : List Row) (a : Nat) :
    a ≤ l.foldl (fun m x => max m x.rowid) a := by
  induction l generalizing a with
  | nil => exact le_refl a
  | cons x xs ih => exact le_trans (le_max_left a x.rowid) (ih (max a x.rowid))

theorem mem_le_foldl_max (l : List Row) :
    ∀ (a : Nat) (r : Row), r ∈ l → r.rowid ≤ l.foldl (fun m x => max m x.rowid) a := by
  induction l with
  | nil =>
    intro a r hr
    exact absurd hr (List.not_mem_nil r)
  | cons x xs ih =>
    intro a r hr
    rcases List.mem_cons.mp hr with h | h
    · subst h
      exact le_trans (le_max_right a r.rowid) (init_le_foldl_max xs (max a r.rowid))
    · exact ih (max a x.rowid) r h

/-- C1 (amended): on a tick with new rows, a failure of any replica sync is
logged and **rethrown**: `syncToReplicas` rejects and the cursor write is
skipped.  The cursor `lastSyncRowId` is advanced — to `max(rows.rowid)`,
strictly above its old value — only when every configured replica call
succeeds. -/
theorem C1_replica_failure_fails_tick (net : ReplicaNet) (s : ShardState)
    (hne : pendingRows s ≠ []) :
    ((∃ ri ∈ s.config.replicas.getD [],
        syncToReplica net ri ((pendingRows s).map rowToRawDoc) = .thrown) →
      syncToReplicas net s = .thrown) ∧
    ((∀ ri ∈ s.config.replicas.getD [],
        syncToReplica net ri ((pendingRows s).map rowToRawDoc) ≠ .thrown) →
      syncToReplicas net s
          = .ok { s with lastSyncRowId := some (maxRowid (pendingRows s)) } ∧
      s.lastSyncRowId.getD 0 < maxRowid (pendingRows s)) := by
  have hempty : (pendingRows s).isEmpty = false := by
    simpa [List.isEmpty_iff] using hne
  constructor
  · rintro ⟨ri, hri, hthrow⟩
    simp only [syncToReplicas, hempty, Bool.false_eq_true, if_false]
    rw [if_pos (List.any_eq_true.mpr ⟨ri, hri, decide_eq_true hthrow⟩)]
  · intro hall
    have hany : ((s.config.replicas.getD []).any fun ri =>
        syncToReplica net ri ((pendingRows s).map rowToRawDoc) = .thrown) = false := by
      rw [Bool.eq_false_iff]
      intro hcontra
      rcases List.any_eq_true.mp hcontra with ⟨ri, hri, hdec⟩
      exact hall ri hri (of_decide_eq_true hdec)
    constructor
    · simp only [syncToReplicas, hempty, Bool.false_eq_true, if_false]
      rw [if_neg (by simp [hany])]
    · rcases List.exists_mem_of_ne_nil _ hne with ⟨r, hr⟩
      have hgt : s.lastSyncRowId.getD 0 < r.rowid := by
        have := List.mem_filter.mp hr
        exact of_decide_eq_true this.2
      exact lt_of_lt_of_le hgt (mem_le_foldl_max _ 0 r hr)

/-- Counterexample to C1 as stated: with one new row and a replica whose
`syncDocuments` throws, `syncToReplicas` rethrows — the failure is not
absorbed, the tick fails, and `lastSyncRowId` is not advanced (it stays
unset rather than moving to `max(rows.rowid) = 1`). -/
theorem C1_counterexample :
    syncToReplicas failNet s1 = .thrown ∧ s1.lastSyncRowId = none := by
  exact ⟨by decide, rfl⟩

/-- Witness for C1: with the same single-row state but an all-success
network, the cursor does advance to `max(rows.rowid) = 1 > 0`. -/
theorem C1_witness :
    syncToReplicas okNet s1
        = .ok { s1 with lastSyncRowId := some (maxRowid (pendingRows s1)) } ∧
    s1.lastSyncRowId.getD 0 < maxRowid (pendingRows s1) :=
  (C1_replica_failure_fails_tick okNet s1 (by decide)).2 (by decide)

/-! ## Claim C2 -/

theorem syncToReplicas_ok_state (net : ReplicaNet) (s s2 : ShardState)
    (h : syncToReplicas net s = .ok s2) : s2.config = s.config ∧ s2.db = s.db := by
  simp only [syncToReplicas] at h
  split at h
  · cases h
    exact ⟨rfl, rfl⟩
  · split at h
    · cases h
    · cases h
      exact ⟨rfl, rfl⟩

theorem purgeOldData_ok_alarmInterval (cold : ColdNet) (size fuel : Nat)
    (s s2 : ShardState) (h : purgeOldData cold size fuel s = .ok s2) :
    s2.config.alarmIntervalMs = s.config.alarmIntervalMs := by
  simp only [purgeOldData] at h
  split at h
  · cases h
    rfl
  · split at h
    · cases h
      rfl
    · split at h
      · cases h
      · cases h
      · split at h
        · cases h
          split <;> rfl
        · cases h
          split <;> rfl

/-- C2 (amended): on a non-read-only shard, a tick that completes rearms the
alarm at `now + (alarmIntervalMs || 60_000)` — but errors in the replication
or purge steps are **not** swallowed: they propagate out of `alarm` and no
next tick is scheduled. -/
theorem C2_tick_rearm (net : ReplicaNet) (cold : ColdNet) (size fuel now : Nat)
    (s : ShardState) (hro : s.config.isReadOnly.getD false = false) :
    (∀ s2 t, alarm net cold size fuel now s = (.ok s2, t) →
        t = some (now + jsOrNat s.config.alarmIntervalMs 60000)) ∧
    (∀ s2 t, alarm net cold size fuel now s = (.thrown s2, t) → t = none) := by
  simp only [alarm, hro, Bool.false_eq_true, if_false]
  cases h1 : (if (s.config.replicas.getD []).isEmpty then RpcOut.ok s
             else syncToReplicas net s) with
  | thrown =>
    simp only [h1]
    constructor
    · intro s2 t heq
      simp at heq
    · intro s2 t heq
      simp only [Prod.mk.injEq] at heq
      exact heq.2.symm
  | ok s1 =>
    have hcfg1 : s1.config = s.config := by
      by_cases hrep : (s.config.replicas.getD []).isEmpty
      · rw [if_pos hrep] at h1
        cases h1
        rfl
      · rw [if_neg hrep] at h1
        exact (syncToReplicas_ok_state net s s1 h1).1
    simp only [h1]
    cases h2 : (if truthyNat s1.config.purgeThresholdDocs
               then purgeOldData cold size fuel s1 else .ok s1) with
    | nofuel =>
      simp only [h2]
      constructor
      · intro s2 t heq
        simp at heq
      · intro s2 t heq
        simp at heq
    | thrown s2 =>
      simp only [h2]
      constructor
      · intro s3 t heq
        simp at heq
      · intro s3 t heq
        simp only [Prod.mk.injEq] at heq
        exact heq.2.symm
    | ok s2 =>
      have hcfg2 : s2.config.alarmIntervalMs = s1.config.alarmIntervalMs := by
        by_cases hp : truthyNat s1.config.purgeThresholdDocs
        · rw [if_pos hp] at h2
          exact purgeOldData_ok_alarmInterval cold size fuel s1 s2 h2
        · rw [if_neg hp] at h2
          cases h2
          rfl
      simp only [h2]
      constructor
      · intro s3 t heq
        simp only [Prod.mk.injEq, StepOut.ok.injEq] at heq
        rw [← heq.2, hcfg2, hcfg1]
      · intro s3 t heq
        simp at heq

/-- Counterexample to C2 as stated: a replica failure inside the replication
step is not swallowed — the tick throws and the alarm is **not** rearmed. -/
theorem C2_counterexample :
    alarm failNet emptyColdNet 0 1 0 s1 = (.thrown s1, none) := by
  decide

/-- Witness for C2: a tick of an idle shard (no replicas, no purge
threshold) at `now = 5` succeeds and rearms at `5 + 60_000` (the default
interval). -/
theorem C2_witness :
    some 60005 = some (5 + jsOrNat sIdle.config.alarmIntervalMs 60000) :=
  (C2_tick_rearm okNet emptyColdNet 0 1 5 sIdle rfl).1 sIdle (some 60005) (by decide)

/-! ## Claim C5 -/

theorem length_insertByRowid (r : Row) (l : List Row) :
    (insertByRowid r l).length = l.length + 1 := by
  induction l with
  | nil => rfl
  | cons x xs ih =>
    simp only [insertByRowid]
    split
    · rfl
    · simp [ih]

theorem length_sortByRowid (l : List Row) :
    (sortByRowid l).length = l.length := by
  induction l with
  | nil => rfl
  | cons x xs ih => simp [sortByRowid, length_insertByRowid, ih]

/-- Number of rows selected by the purge query when the computed target is
at most the document count. -/
theorem purgeSelection_length (cfg : DOConfig) (db : List Row) (target : Nat)
    (htarget : jsOrNat cfg.purgeTargetDocs
        (jsOrNat cfg.purgeThresholdDocs (4 * db.length / 5)) = target)
    (hle : target ≤ db.length) :
    (purgeSelection cfg db).length = db.length - target := by
  have hnonneg : ¬((db.length : Int) - target < 0) := by omega
  have htonat : ((db.length : Int) - target).toNat = db.length - target := by omega
  simp only [purgeSelection, numToPurge, rowsLimit, htarget, if_neg hnonneg, htonat,
    List.length_take, length_sortByRowid]
  omega

/-- Counterexample to C5 as stated: with `purgeTargetCount` unset and
`purgeThresholdDocs = 100`, at `count = 150` the code purges
`count - purgeThresholdDocs = 50` rows, not `0.2 × count = 30`. -/
theorem C5_counterexample :
    numToPurge thresholdOnlyCfg 150 = 50 ∧ (50 : Int) ≠ 30 := by
  constructor
  · decide
  · decide

/-- C5 (amended): the number of oldest rows selected for migration is
`count - purgeTargetDocs` when `purgeTargetDocs` is set (and truthy);
otherwise `count - purgeThresholdDocs` when `purgeThresholdDocs` is set
(and truthy); the spec's `0.2 × count` (namely `count - ⌊0.8 × count⌋`)
applies only when **both** are unset or zero. -/
theorem C5_purge_count (cfg : DOConfig) (db : List Row) :
    (∀ t, cfg.purgeTargetDocs = some t → t ≠ 0 → t ≤ db.length →
        (purgeSelection cfg db).length = db.length - t) ∧
    (cfg.purgeTargetDocs.getD 0 = 0 →
      ∀ th, cfg.purgeThresholdDocs = some th → th ≠ 0 → th ≤ db.length →
        (purgeSelection cfg db).length = db.length - th) ∧
    (cfg.purgeTargetDocs.getD 0 = 0 → cfg.purgeThresholdDocs.getD 0 = 0 →
        (purgeSelection cfg db).length = db.length - 4 * db.length / 5) := by
  have hfall : ∀ (o : Option Nat) (d : Nat), o.getD 0 = 0 → jsOrNat o d = d := by
    intro o d ho
    cases o with
    | none => rfl
    | some n =>
      simp only [Option.getD] at ho
      simp [jsOrNat, ho]
  refine ⟨?_, ?_, ?_⟩
  · intro t ht ht0 hle
    refine purgeSelection_length cfg db t ?_ hle
    simp [jsOrNat, ht, ht0]
  · intro htd th hth hth0 hle
    refine purgeSelection_length cfg db th ?_ hle
    rw [hfall _ _ htd]
    simp [jsOrNat, hth, hth0]
  · intro htd hthd
    refine purgeSelection_length cfg db (4 * db.length / 5) ?_ (by omega)
    rw [hfall _ _ htd, hfall _ _ hthd]

/-- Witness for C5: threshold 2, target 1, two rows — exactly one row (the
oldest) is selected. -/
theorem C5_witness : (purgeSelection s4.config s4.db).length = s4.db.length - 1 :=
  (C5_purge_count s4.config s4.db).1 1 rfl (by decide) (by decide)

/-! ## Claim C4 -/

/-- When the migration loop returns successfully, the batches it wrote to
cold shards concatenate (in order, after the already-moved accumulator) to
exactly the remaining rows it was given. -/
theorem purgeLoop_ok_join (cold : ColdNet) (th : Nat) :
    ∀ (fuel i : Nat) (rem : List Row) (acc : List (List Row)) (j : Nat)
      (m : List (List Row)),
      purgeLoop cold th fuel i rem acc = .ok j m →
      m.flatten = acc.reverse.flatten ++ rem := by
  intro fuel
  induction fuel with
  | zero =>
    intro i rem acc j m h
    cases h
  | succ fuel ih =>
    intro i rem acc j m h
    cases rem with
    | nil =>
      cases h
      simp
    | cons d rest =>
      simp only [purgeLoop] at h
      split at h
      · exact ih (i + 1) (d :: rest) acc j m h
      · split at h
        · cases h
        · split at h
          · cases h
          · split at h
            · cases h
            · have hrec := ih _ _ _ j m h
              rw [hrec]
              simp [List.take_append_drop]

/-- C4: the purge step never deletes primary rows unless every cold-shard
write succeeded.  If anything inside the migration loop throws (a cold
`indexDocuments` transport error, a `success = false` result, or a failed
read-only configure), `purgeOldData` rethrows with the primary state — in
particular the document table — unchanged.  When it succeeds, either
nothing was selected (table unchanged) or the loop completed with batches
covering exactly the selected oldest rows, and only then were all rows with
`rowid ≤ lastDoc.rowid` deleted in one statement. -/
theorem C4_delete_only_after_cold_writes (cold : ColdNet) (size fuel : Nat)
    (s : ShardState) :
    (∀ s2, purgeOldData cold size fuel s = .thrown s2 → s2 = s) ∧
    (∀ s2, purgeOldData cold size fuel s = .ok s2 →
      s2.db = s.db ∨
      ∃ j m last,
        purgeLoop cold (coldStorageThreshold s.config) fuel
            (s.config.currentColdStorageIndex.getD 0) (purgeSelection s.config s.db) []
          = .ok j m ∧
        m.flatten = purgeSelection s.config s.db ∧
        (purgeSelection s.config s.db).getLast? = some last ∧
        s2.db = s.db.filter fun r => !(r.rowid ≤ last.rowid)) := by
  constructor
  · intro s2 h
    simp only [purgeOldData] at h
    split at h
    · cases h
    · split at h
      · cases h
      · split at h
        · cases h
        · cases h
          rfl
        · split at h
          · cases h
          · cases h
  · intro s2 h
    simp only [purgeOldData] at h
    split at h
    · cases h
      exact Or.inl rfl
    · split at h
      · cases h
        exact Or.inl rfl
      · rename_i hsel
        cases hloop : purgeLoop cold (coldStorageThreshold s.config) fuel
            (s.config.currentColdStorageIndex.getD 0) (purgeSelection s.config s.db) [] with
        | nofuel =>
          rw [hloop] at h
          cases h
        | thrown =>
          rw [hloop] at h
          cases h
        | ok finalIndex moved =>
          rw [hloop] at h
          cases hlast : (purgeSelection s.config s.db).getLast? with
          | none =>
            rw [hlast] at h
            cases h
            left
            split <;> rfl
          | some lastDoc =>
            rw [hlast] at h
            cases h
            right
            refine ⟨finalIndex, moved, lastDoc, rfl, ?_, rfl, ?_⟩
            · simpa using purgeLoop_ok_join cold (coldStorageThreshold s.config) fuel
                (s.config.currentColdStorageIndex.getD 0) (purgeSelection s.config s.db)
                [] finalIndex moved hloop
            · show (if finalIndex ≠ s.config.currentColdStorageIndex.getD 0 then _ else s).db.filter _
                  = s.db.filter _
              split <;> rfl

/-- Witness for C4: a concrete purge (threshold 2, target 1, empty cold
shard) succeeds and deletes exactly the migrated oldest row. -/
theorem C4_witness :
    ({ db := [⟨2, .str "b", "y"⟩], config := s4.config,
       lastSyncRowId := none } : ShardState).db = s4.db ∨
    ∃ j m last,
      purgeLoop emptyColdNet (coldStorageThreshold s4.config) 3
          (s4.config.currentColdStorageIndex.getD 0) (purgeSelection s4.config s4.db) []
        = .ok j m ∧
      m.flatten = purgeSelection s4.config s4.db ∧
      (purgeSelection s4.config s4.db).getLast? = some last ∧
      ({ db := [⟨2, .str "b", "y"⟩], config := s4.config,
         lastSyncRowId := none } : ShardState).db
        = s4.db.filter fun r => !(r.rowid ≤ last.rowid) :=
  (C4_delete_only_after_cold_writes emptyColdNet 0 3 s4).2
    { db := [⟨2, .str "b", "y"⟩], config := s4.config, lastSyncRowId := none }
    (by decide)

end CfSearch